import Mathlib

/-!
Verification of the trivymultiscanner SBOM pipeline (main.py, app.py, app_n.py,
app_p.py) against its natural-language specification.

The pure cores of the Python functions are embedded shallowly:
dictionaries with optional keys become structures with `Option` fields,
JSON arrays become lists, file-system state becomes an association list
from path to document, and in-place mutation becomes a function from
document to document.  Python string operations are modelled on the
character list underlying `String` so that every definition evaluates
by kernel reduction.
-/

namespace TrivyMultiScanner

/-- Boolean prefix test on character lists (models Python `str.startswith`
and is the workhorse of the substring test). -/
def listPre : List Char → List Char → Bool
  | [], _ => true
  | _ :: _, [] => false
  | a :: as, b :: bs => if a = b then listPre as bs else false

/-- Boolean substring test on character lists. -/
def hasSub (pat : List Char) : List Char → Bool
  | [] => pat.isEmpty
  | c :: cs => listPre pat (c :: cs) || hasSub pat cs

/-- Models the Python expression `pat in s` (substring containment). -/
def strHas (s pat : String) : Bool := hasSub pat.data s.data

/-- Models Python `s.startswith(pat)`. -/
def strStarts (s pat : String) : Bool := listPre pat.data s.data

/-- Models Python `s.endswith(pat)`. -/
def strEnds (s pat : String) : Bool := listPre pat.data.reverse s.data.reverse

/-- ASCII lower-casing of one character; the input CSV ecosystem tags are
ASCII, so this models Python `str.lower` on the data that reaches it. -/
def asciiLower (c : Char) : Char :=
  if 65 ≤ c.toNat ∧ c.toNat ≤ 90 then Char.ofNat (c.toNat + 32) else c

/-- Whitespace test used by the model of Python `str.strip`. -/
def isWs (c : Char) : Bool := c = ' ' || c = '\t' || c = '\n' || c = '\r'

/-- Models Python `s.lower().strip()` for the ASCII tags in the CSV input. -/
def lowerStrip (s : String) : String :=
  let cs := (s.data.map asciiLower).dropWhile isWs
  String.mk (cs.reverse.dropWhile isWs).reverse

/-- One entry of an SPDX `packages` array.  Only the keys the code reads
(`SPDXID`, `name`) are modelled; both may be absent in the JSON. -/
structure Package where
  SPDXID : Option String
  name : Option String
deriving DecidableEq, Repr

/-- One entry of an SPDX `relationships` array. -/
structure Relationship where
  spdxElementId : Option String
  relatedSpdxElement : Option String
  relationshipType : Option String
deriving DecidableEq, Repr

/-- An SPDX document as the code manipulates it: six envelope keys, a
`packages` array (read with a `[]` default everywhere) and an optional
`relationships` array (the code branches on the key's presence).
`creationInfo` is never inspected, so its JSON payload is abstracted to a
string. -/
@[ext]
structure SpdxDoc where
  spdxVersion : Option String
  dataLicense : Option String
  SPDXID : Option String
  name : Option String
  documentNamespace : Option String
  creationInfo : Option String
  packages : List Package
  relationships : Option (List Relationship)
deriving DecidableEq, Repr

/-- Membership of a possibly-absent id in a list of (string) ids; models
Python `x not in list_of_strings` where `x` may be `None` (negated). -/
def optMemStr (o : Option String) (ids : List String) : Bool :=
  match o with
  | some s => ids.contains s
  | none => false

/-- The package predicate of `remove_pipfile_package` in main.py:
`pkg.get("name") and "Pipfile.lock" in pkg.get("name")` (a missing or
empty name is falsy and never matches). -/
def mainLockMatch (p : Package) : Bool :=
  match p.name with
  | none => false
  | some n => (!(n = "")) && strHas n "Pipfile.lock"

/-- The list comprehension `[pkg["SPDXID"] for pkg in matching]` of
main.py: collects the SPDXID of each package in order, raising `KeyError`
(modelled as `Except.error`) at the first package missing the key. -/
def collectStrict : List Package → Except Unit (List String)
  | [] => Except.ok []
  | p :: rest =>
    match p.SPDXID with
    | none => Except.error ()
    | some i =>
      match collectStrict rest with
      | Except.error e => Except.error e
      | Except.ok ids => Except.ok (i :: ids)

/-- `remove_pipfile_package` from main.py (the pure document transform;
the file wrapper is modelled separately).  Collects the SPDXIDs of
Pipfile.lock-named packages (raising on a missing SPDXID key), drops those
packages, then — when the `relationships` key is present — drops every
relationship touching a collected id. -/
def remove_pipfile_package_main (d : SpdxDoc) : Except Unit SpdxDoc :=
  match collectStrict (d.packages.filter mainLockMatch) with
  | Except.error e => Except.error e
  | Except.ok ids =>
    Except.ok
      { d with
        packages := d.packages.filter (fun p => !(mainLockMatch p)),
        relationships :=
          match d.relationships with
          | none => none
          | some rs =>
            some (rs.filter (fun r =>
              !(optMemStr r.spdxElementId ids) &&
              !(optMemStr r.relatedSpdxElement ids))) }

/-- The package predicate of `remove_pipfile_package` in app.py:
`(pkg.get("name") or "").find("Pipfile.lock") >= 0`. -/
def appLockMatch (p : Package) : Bool :=
  strHas (p.name.getD "") "Pipfile.lock"

/-- `remove_pipfile_package` from app.py (pure document transform).
Uses `.get("SPDXID")` (so collected ids may be `None`), and only rebuilds
`relationships` when the key is present and the collected id list is
non-empty. -/
def remove_pipfile_package_app (d : SpdxDoc) : SpdxDoc :=
  let ids : List (Option String) := (d.packages.filter appLockMatch).map (·.SPDXID)
  { d with
    packages := d.packages.filter (fun p => !(appLockMatch p)),
    relationships :=
      match d.relationships with
      | none => none
      | some rs =>
        if ids.isEmpty then some rs
        else
          some (rs.filter (fun r =>
            !(ids.contains r.spdxElementId) &&
            !(ids.contains r.relatedSpdxElement))) }

/-- Python `str(x)` on an optional string: `str(None)` is `"None"`. -/
def pyStrOfOpt (o : Option String) : String :=
  match o with
  | none => "None"
  | some s => s

/-- The inline post-scan filter of `create_python_sbom` in app_p.py:
keeps the packages for which
`not (pkg.get("name") == "Pipfile.lock" or "Pipfile.lock" in str(pkg.get("name")))`
and touches nothing else (in particular, relationships are left as they are). -/
def create_python_sbom_filter (d : SpdxDoc) : SpdxDoc :=
  { d with
    packages := d.packages.filter (fun p =>
      !(p.name == some "Pipfile.lock" || strHas (pyStrOfOpt p.name) "Pipfile.lock")) }

/-- The inline post-scan filter of `create_nodejs_sbom` in app_p.py, the
`package-lock.json` analogue of `create_python_sbom_filter`. -/
def create_nodejs_sbom_filter (d : SpdxDoc) : SpdxDoc :=
  { d with
    packages := d.packages.filter (fun p =>
      !(p.name == some "package-lock.json" || strHas (pyStrOfOpt p.name) "package-lock.json")) }

/-- A file system fragment: association list from path to parsed SBOM
document. -/
def FileSys := List (String × SpdxDoc)

/-- `os.path.exists` / `json.load` combined: look a path up. -/
def fsLookup (fs : FileSys) (path : String) : Option SpdxDoc :=
  List.lookup path fs

/-- Writing a document back to an existing path. -/
def fsWrite (fs : FileSys) (path : String) (d : SpdxDoc) : FileSys :=
  (fs : List (String × SpdxDoc)).map (fun e => if e.1 = path then (path, d) else e)

/-- `remove_pipfile_package(sbom_path)` from main.py at the file level:
when the path does not exist the function logs and returns (no raise, no
write); otherwise it loads, transforms and writes back in place. -/
def remove_pipfile_package_main_io (fs : FileSys) (path : String) :
    Except Unit FileSys :=
  match fsLookup fs path with
  | none => Except.ok fs
  | some d =>
    match remove_pipfile_package_main d with
    | Except.error e => Except.error e
    | Except.ok d2 => Except.ok (fsWrite fs path d2)

/-- `remove_pipfile_package(sbom_path)` from app.py at the file level. -/
def remove_pipfile_package_app_io (fs : FileSys) (path : String) : FileSys :=
  match fsLookup fs path with
  | none => fs
  | some d => fsWrite fs path (remove_pipfile_package_app d)

/-- `parse_csv` from main.py and app.py (the loop body; file opening and
the blanket exception handler are IO): rows with fewer than 3 columns are
skipped, otherwise `[row[0], row[1], row[2]]` is appended. -/
def parse_csv : List (List String) → List (List String)
  | [] => []
  | row :: rest =>
    match row with
    | a :: b :: c :: _ => [a, b, c] :: parse_csv rest
    | _ => parse_csv rest

/-- `parse_csv` from app_p.py: a row with at least 5 columns whose second
column lower-cases and strips to `"java"` keeps 5 columns; otherwise a row
with at least 4 columns keeps 4 columns plus a `None` fifth element; other
rows are skipped. -/
def parse_csv_app_p : List (List String) → List (List (Option String))
  | [] => []
  | row :: rest =>
    match row with
    | a :: b :: c :: d :: e :: _ =>
      if lowerStrip b = "java" then
        [some a, some b, some c, some d, some e] :: parse_csv_app_p rest
      else
        [some a, some b, some c, some d, none] :: parse_csv_app_p rest
    | a :: b :: c :: d :: _ =>
      [some a, some b, some c, some d, none] :: parse_csv_app_p rest
    | _ => parse_csv_app_p rest

/-- Restatement of the spec sentence for `parse_csv` (main.py/app.py):
exactly the rows with at least 3 columns, in order, truncated to 3. -/
def parse_csv_spec (rows : List (List String)) : List (List String) :=
  (rows.filter (fun r => 3 ≤ r.length)).map (fun r => r.take 3)

/-- Restatement of the spec sentence for app_p.py's `parse_csv`: rows with
fewer than 4 columns are skipped; java rows (5 or more columns, second
column tagged java) keep 5 columns; other rows keep 4 columns plus `None`. -/
def parse_csv_app_p_spec (rows : List (List String)) : List (List (Option String)) :=
  (rows.filter (fun r => 4 ≤ r.length)).map (fun r =>
    if 5 ≤ r.length ∧ lowerStrip (r.getD 1 "") = "java" then
      (r.take 5).map some
    else
      (r.take 4).map some ++ [none])

/-- Python truthiness of a `.get` result on string values: `None` and the
empty string are falsy. -/
def pyTruthy (o : Option String) : Option String :=
  match o with
  | some s => if s = "" then none else some s
  | none => none

/-- The dictionary comprehension
`{pkg["name"]: pkg["SPDXID"] for pkg in packages if "SPDXID" in pkg and "name" in pkg}`
followed by `.get(n)`: the last package carrying both keys with name `n`
wins. -/
def name_to_spdxid (pkgs : List Package) (n : String) : Option String :=
  pkgs.foldl (fun acc p =>
    match p.name, p.SPDXID with
    | some nm, some i => if nm = n then some i else acc
    | _, _ => acc) none

/-- One node of `pipenv graph --json`: `node["package"]["key"]` plus the
keys of `node.get("dependencies", [])`. -/
structure PipenvNode where
  package_key : String
  dependencies : List String
deriving DecidableEq, Repr

/-- The relationships appended by `map_pipenv_graph_to_sbom`: for every
graph edge whose parent and child keys both resolve (truthily) through
`name_to_spdxid`, one `DEPENDS_ON` entry. -/
def map_pipenv_new_rels (pkgs : List Package) (graph : List PipenvNode) :
    List Relationship :=
  graph.flatMap (fun node =>
    let parent_spdxid := pyTruthy (name_to_spdxid pkgs node.package_key)
    node.dependencies.filterMap (fun child =>
      match parent_spdxid, pyTruthy (name_to_spdxid pkgs child) with
      | some pid, some cid =>
        some ⟨some pid, some cid, some "DEPENDS_ON"⟩
      | _, _ => none))

/-- `map_pipenv_graph_to_sbom` (app_p.py) as a document transform: the
new relationships are appended to `sbom.get("relationships", [])` and the
key is (re)assigned. -/
def map_pipenv_graph_to_sbom (d : SpdxDoc) (graph : List PipenvNode) : SpdxDoc :=
  { d with
    relationships :=
      some (d.relationships.getD [] ++ map_pipenv_new_rels d.packages graph) }

/-- The nested dependency dictionary of `npm ls --all --json`: each value
is a node whose `dependencies` key maps child names to child nodes. -/
inductive NpmTree where
  | node : List (String × NpmTree) → NpmTree

/-- The child list of a node. -/
def NpmTree.children : NpmTree → List (String × NpmTree)
  | node cs => cs

mutual
/-- `walk_dependencies(parent_name, deps)` from `map_npm_ls_to_sbom`:
returns early when the parent name does not resolve truthily (skipping the
whole subtree), otherwise emits one edge per resolvable direct child and
recurses into every child. -/
def walk_dependencies (pkgs : List Package) (parentName : String) :
    NpmTree → List Relationship
  | NpmTree.node deps =>
    match pyTruthy (name_to_spdxid pkgs parentName) with
    | none => []
    | some pid => walk_dep_items pkgs pid deps

/-- The `for child_name, child_info in deps.items()` loop body of
`walk_dependencies`, with the parent already resolved to `pid`. -/
def walk_dep_items (pkgs : List Package) (pid : String) :
    List (String × NpmTree) → List Relationship
  | [] => []
  | (childName, childTree) :: rest =>
    ((match pyTruthy (name_to_spdxid pkgs childName) with
      | some cid => [⟨some pid, some cid, some "DEPENDS_ON"⟩]
      | none => []) ++ walk_dependencies pkgs childName childTree)
      ++ walk_dep_items pkgs pid rest
end

/-- The root object of `npm ls --all --json`: `npm_tree.get("name")` plus
`npm_tree.get("dependencies", {})`. -/
structure NpmTop where
  name : Option String
  dependencies : List (String × NpmTree)

/-- The relationships appended by `map_npm_ls_to_sbom`.  When the root
`name` key is missing, `name_to_spdxid.get(None)` yields `None` and the
walk returns immediately with no edge. -/
def map_npm_new_rels (pkgs : List Package) (t : NpmTop) : List Relationship :=
  match t.name with
  | none => []
  | some rn => walk_dependencies pkgs rn (NpmTree.node t.dependencies)

/-- `map_npm_ls_to_sbom` (app_p.py) as a document transform. -/
def map_npm_ls_to_sbom (d : SpdxDoc) (t : NpmTop) : SpdxDoc :=
  { d with
    relationships :=
      some (d.relationships.getD [] ++ map_npm_new_rels d.packages t) }

/-- Pass 1 of every merge function, exclusion part: over the files whose
name matches the ecosystem filter, collect `pkg.get("SPDXID")` (possibly
`None`) of every package matched by the exclusion predicate.  The Python
set is modelled as a list queried only through membership. -/
def collectExcludeIds (ff : String → Bool) (ex : Package → Bool)
    (listing : List (String × SpdxDoc)) : List (Option String) :=
  listing.flatMap (fun fd =>
    if ff fd.1 then ((fd.2).packages.filter ex).map (·.SPDXID) else [])

/-- Pass 1, envelope part: the first matching file of the directory
listing, whose six envelope keys seed the merged document. -/
def firstMatching (ff : String → Bool) (listing : List (String × SpdxDoc)) :
    Option SpdxDoc :=
  (listing.find? (fun fd => ff fd.1)).map (·.2)

/-- The shared body of `merge_sbom_files`, `merge_nodejs_sbom_files` and
`merge_java_sbom_files` (the four copies differ only in the filename
filter and the package-exclusion predicate): envelope from the first
matching file (each key `None` when absent there or when no file
matches), then concatenation of every matching file's packages and
relationships with the excluded ids filtered out. -/
def mergeCore (ff : String → Bool) (ex : Package → Bool)
    (listing : List (String × SpdxDoc)) : SpdxDoc :=
  let ids := collectExcludeIds ff ex listing
  let first := firstMatching ff listing
  { spdxVersion := first.bind (·.spdxVersion),
    dataLicense := first.bind (·.dataLicense),
    SPDXID := first.bind (·.SPDXID),
    name := first.bind (·.name),
    documentNamespace := first.bind (·.documentNamespace),
    creationInfo := first.bind (·.creationInfo),
    packages := listing.flatMap (fun fd =>
      if ff fd.1 then
        (fd.2).packages.filter (fun p => !(ids.contains p.SPDXID))
      else []),
    relationships :=
      some (listing.flatMap (fun fd =>
        if ff fd.1 then
          ((fd.2).relationships.getD []).filter (fun r =>
            !(ids.contains r.spdxElementId) &&
            !(ids.contains r.relatedSpdxElement))
        else [])) }

/-- Filename filter of app_p.py's `merge_sbom_files`:
`("_python_") in filename and filename.endswith(".json")`. -/
def pyFileMatchP (fn : String) : Bool :=
  strHas fn "_python_" && strEnds fn ".json"

/-- Filename filter of app_n.py's `merge_sbom_files`:
`filename.startswith("python_") and filename.endswith(".json")`. -/
def pyFileMatchN (fn : String) : Bool :=
  strStarts fn "python_" && strEnds fn ".json"

/-- Filename filter of `merge_nodejs_sbom_files`. -/
def nodeFileMatch (fn : String) : Bool :=
  strHas fn "_nodejs_" && strEnds fn ".json"

/-- Filename filter of `merge_java_sbom_files`. -/
def javaFileMatch (fn : String) : Bool :=
  strHas fn "_java_" && strEnds fn ".json"

/-- Exclusion predicate of the python merges:
`name == "Pipfile.lock" or ("Pipfile.lock" in name)` over
`pkg.get("name", "")`. -/
def mergeExPy (p : Package) : Bool :=
  let n := p.name.getD ""
  n == "Pipfile.lock" || strHas n "Pipfile.lock"

/-- Exclusion predicate of `merge_nodejs_sbom_files`. -/
def mergeExNode (p : Package) : Bool :=
  let n := p.name.getD ""
  n == "package-lock.json" || strHas n "package-lock.json"

/-- Exclusion predicate of `merge_java_sbom_files`:
`name.endswith(".jar") or "Temp" in name or "tmp" in name`. -/
def mergeExJava (p : Package) : Bool :=
  let n := p.name.getD ""
  strEnds n ".jar" || strHas n "Temp" || strHas n "tmp"

/-- `merge_sbom_files` from app_p.py over a directory listing. -/
def merge_sbom_files_p : List (String × SpdxDoc) → SpdxDoc :=
  mergeCore pyFileMatchP mergeExPy

/-- `merge_sbom_files` from app_n.py over a directory listing. -/
def merge_sbom_files_n : List (String × SpdxDoc) → SpdxDoc :=
  mergeCore pyFileMatchN mergeExPy

/-- `merge_nodejs_sbom_files` from app_p.py. -/
def merge_nodejs_sbom_files : List (String × SpdxDoc) → SpdxDoc :=
  mergeCore nodeFileMatch mergeExNode

/-- `merge_java_sbom_files` from app_p.py. -/
def merge_java_sbom_files : List (String × SpdxDoc) → SpdxDoc :=
  mergeCore javaFileMatch mergeExJava

/-- Whether an optional id is the SPDXID of some package in the list. -/
def refB (pkgs : List Package) (o : Option String) : Bool :=
  match o with
  | some i => pkgs.any (fun p => p.SPDXID == some i)
  | none => false

/-- A relationship both of whose endpoints are SPDXIDs of packages in the
list and whose type is `DEPENDS_ON`. -/
def relOk (pkgs : List Package) (r : Relationship) : Bool :=
  refB pkgs r.spdxElementId && refB pkgs r.relatedSpdxElement &&
    (r.relationshipType == some "DEPENDS_ON")

/-- Whether a name resolves truthily through the name-to-SPDXID lookup. -/
def resolvesB (pkgs : List Package) (n : String) : Bool :=
  match pyTruthy (name_to_spdxid pkgs n) with
  | some _ => true
  | none => false

mutual
/-- Number of parent-child occurrences in an npm dependency tree (each
nested occurrence counts once). -/
def treeEdgeCount : NpmTree → Nat
  | NpmTree.node deps => listEdgeCount deps

/-- Edge count of a child list: one per direct child plus the child's own
subtree count. -/
def listEdgeCount : List (String × NpmTree) → Nat
  | [] => 0
  | (_, t) :: rest => 1 + treeEdgeCount t + listEdgeCount rest
end

mutual
/-- Every name occurring in the tree resolves truthily to an SPDXID. -/
def treeAllResolve (pkgs : List Package) : NpmTree → Bool
  | NpmTree.node deps => listAllResolve pkgs deps

/-- Child-list part of `treeAllResolve`. -/
def listAllResolve (pkgs : List Package) : List (String × NpmTree) → Bool
  | [] => true
  | (n, t) :: rest =>
    resolvesB pkgs n && treeAllResolve pkgs t && listAllResolve pkgs rest
end

/-- A four-package document inventory for the diamond dependency shape. -/
def pkgsDiamond : List Package :=
  [⟨some "SPDXRef-A", some "A"⟩, ⟨some "SPDXRef-B", some "B"⟩,
   ⟨some "SPDXRef-C", some "C"⟩, ⟨some "SPDXRef-D", some "D"⟩]

/-- The diamond-shaped npm dependency tree: root `A` with children `B`
and `C`, each of which has child `D`. -/
def npmDiamond : NpmTop :=
  ⟨some "A",
    [("B", NpmTree.node [("D", NpmTree.node [])]),
     ("C", NpmTree.node [("D", NpmTree.node [])])]⟩

/-! ## Helper lemmas -/

/-- An id the name lookup returns belongs to some package of the list. -/
theorem name_to_spdxid_aux (n : String) (i : String) :
    ∀ (pkgs : List Package) (acc : Option String),
      pkgs.foldl (fun acc p =>
        match p.name, p.SPDXID with
        | some nm, some j => if nm = n then some j else acc
        | _, _ => acc) acc = some i →
      (∃ p ∈ pkgs, p.name = some n ∧ p.SPDXID = some i) ∨ acc = some i := by
  intro pkgs
  induction pkgs with
  | nil => intro acc h; exact Or.inr h
  | cons p rest ih =>
    intro acc h
    rw [List.foldl_cons] at h
    rcases ih _ h with h1 | h2
    · obtain ⟨q, hq, hqn, hqi⟩ := h1
      exact Or.inl ⟨q, List.mem_cons_of_mem _ hq, hqn, hqi⟩
    · revert h2
      cases hn : p.name with
      | none => intro h2; exact Or.inr h2
      | some nm =>
        cases hi : p.SPDXID with
        | none => intro h2; exact Or.inr h2
        | some j =>
          simp only []
          by_cases hnm : nm = n
          · subst hnm
            rw [if_pos rfl]
            intro h2
            exact Or.inl ⟨p, List.mem_cons_self _ _, hn, by rw [hi, h2]⟩
          · rw [if_neg hnm]
            intro h2; exact Or.inr h2

/-- If `name_to_spdxid` resolves `n` to `i`, some package of the document
has SPDXID `i`. -/
theorem name_to_spdxid_mem (pkgs : List Package) (n i : String)
    (h : name_to_spdxid pkgs n = some i) :
    ∃ p ∈ pkgs, p.name = some n ∧ p.SPDXID = some i := by
  rcases name_to_spdxid_aux n i pkgs none h with h1 | h2
  · exact h1
  · exact absurd h2 (by simp)

/-- A truthy resolution of a name yields a package-backed id. -/
theorem refB_of_resolve (pkgs : List Package) (n i : String)
    (h : pyTruthy (name_to_spdxid pkgs n) = some i) :
    refB pkgs (some i) = true := by
  cases hn : name_to_spdxid pkgs n with
  | none => rw [hn] at h; exact absurd h (by simp [pyTruthy])
  | some s =>
    rw [hn] at h
    by_cases hs : s = ""
    · rw [hs] at h; exact absurd h (by simp [pyTruthy])
    · obtain ⟨rfl⟩ : s = i := by simpa [pyTruthy, hs] using h
      obtain ⟨p, hp, _, hpi⟩ := name_to_spdxid_mem pkgs n i hn
      unfold refB
      rw [List.any_eq_true]
      exact ⟨p, hp, by rw [hpi]; simp⟩

/-- Every relationship produced for a pipenv graph is package-backed and
of type `DEPENDS_ON`. -/
theorem map_pipenv_new_rels_all (pkgs : List Package) (graph : List PipenvNode) :
    (map_pipenv_new_rels pkgs graph).all (relOk pkgs) = true := by
  rw [List.all_eq_true]
  intro r hr
  unfold map_pipenv_new_rels at hr
  rw [List.mem_flatMap] at hr
  obtain ⟨node, _, hr2⟩ := hr
  rw [List.mem_filterMap] at hr2
  obtain ⟨child, _, hf⟩ := hr2
  revert hf
  cases hp : pyTruthy (name_to_spdxid pkgs node.package_key) with
  | none => intro hf; exact absurd hf (by simp)
  | some pid =>
    cases hc : pyTruthy (name_to_spdxid pkgs child) with
    | none => intro hf; exact absurd hf (by simp)
    | some cid =>
      intro hf
      obtain ⟨rfl⟩ : (⟨some pid, some cid, some "DEPENDS_ON"⟩ : Relationship) = r := by
        simpa using hf
      unfold relOk
      rw [refB_of_resolve pkgs _ pid hp, refB_of_resolve pkgs _ cid hc]
      rfl

mutual
/-- Every relationship emitted by the npm walk is package-backed and of
type `DEPENDS_ON`. -/
theorem walk_dependencies_all (pkgs : List Package) (parent : String)
    (t : NpmTree) : (walk_dependencies pkgs parent t).all (relOk pkgs) = true := by
  cases t with
  | node deps =>
    rw [walk_dependencies]
    cases hp : pyTruthy (name_to_spdxid pkgs parent) with
    | none => rfl
    | some pid =>
      exact walk_dep_items_all pkgs pid (refB_of_resolve pkgs parent pid hp) deps

/-- Loop part of `walk_dependencies_all`. -/
theorem walk_dep_items_all (pkgs : List Package) (pid : String)
    (hpid : refB pkgs (some pid) = true) :
    ∀ deps : List (String × NpmTree),
      (walk_dep_items pkgs pid deps).all (relOk pkgs) = true
  | [] => by rfl
  | (childName, childTree) :: rest => by
    rw [walk_dep_items]
    rw [List.all_append, List.all_append]
    rw [walk_dependencies_all pkgs childName childTree,
      walk_dep_items_all pkgs pid hpid rest]
    cases hc : pyTruthy (name_to_spdxid pkgs childName) with
    | none => rfl
    | some cid =>
      simp only [List.all_cons, List.all_nil, Bool.and_true]
      unfold relOk
      rw [hpid, refB_of_resolve pkgs childName cid hc]
      rfl
end

/-- Every relationship produced for an npm tree is package-backed and of
type `DEPENDS_ON`. -/
theorem map_npm_new_rels_all (pkgs : List Package) (t : NpmTop) :
    (map_npm_new_rels pkgs t).all (relOk pkgs) = true := by
  unfold map_npm_new_rels
  cases t.name with
  | none => rfl
  | some rn => exact walk_dependencies_all pkgs rn (NpmTree.node t.dependencies)

/-- If every relationship of a list is package-backed with type
`DEPENDS_ON`, then in particular every one has type `DEPENDS_ON`. -/
theorem all_type_of_relOk (pkgs : List Package) (l : List Relationship)
    (h : l.all (relOk pkgs) = true) :
    l.all (fun r => r.relationshipType == some "DEPENDS_ON") = true := by
  rw [List.all_eq_true] at h ⊢
  intro r hr
  have h2 := h r hr
  unfold relOk at h2
  simp only [Bool.and_eq_true] at h2
  exact h2.2

/-! ## Claim theorems -/

/-- C9: when the file at `sbom_path` does not exist,
`remove_pipfile_package` (main.py and app.py) returns normally without
raising, and the file system is left exactly as it was — no file is
created or written. -/
theorem C9_missing_sbom_is_noop (fs : FileSys) (path : String)
    (h : fsLookup fs path = none) :
    remove_pipfile_package_main_io fs path = Except.ok fs ∧
    remove_pipfile_package_app_io fs path = fs := by
  constructor
  · unfold remove_pipfile_package_main_io
    rw [h]
  · unfold remove_pipfile_package_app_io
    rw [h]

/-- C9 witness: a file system holding one unrelated file, queried at a
path that is absent. -/
theorem C9_missing_sbom_is_noop_witness :
    fsLookup [("output/requests_2.31.0.json",
      ⟨none, none, none, none, none, none, [], none⟩)] "output/flask_2.0.1.json" = none ∧
    remove_pipfile_package_main_io [("output/requests_2.31.0.json",
      ⟨none, none, none, none, none, none, [], none⟩)] "output/flask_2.0.1.json" =
      Except.ok [("output/requests_2.31.0.json",
        ⟨none, none, none, none, none, none, [], none⟩)] ∧
    remove_pipfile_package_app_io [("output/requests_2.31.0.json",
      ⟨none, none, none, none, none, none, [], none⟩)] "output/flask_2.0.1.json" =
      [("output/requests_2.31.0.json",
        ⟨none, none, none, none, none, none, [], none⟩)] := by
  refine ⟨by rfl, ?_⟩
  exact C9_missing_sbom_is_noop _ _ (by rfl)

/-- C10: the dependency-graph mappers only append: packages and all six
envelope fields are unchanged, the output relationships are the input
relationships (empty when the key was absent) followed by the newly
appended entries, and every appended entry has type `DEPENDS_ON`. -/
theorem C10_mappers_append_only (d : SpdxDoc) (g : List PipenvNode) (t : NpmTop) :
    ((map_pipenv_graph_to_sbom d g).packages = d.packages ∧
     (map_pipenv_graph_to_sbom d g).spdxVersion = d.spdxVersion ∧
     (map_pipenv_graph_to_sbom d g).dataLicense = d.dataLicense ∧
     (map_pipenv_graph_to_sbom d g).SPDXID = d.SPDXID ∧
     (map_pipenv_graph_to_sbom d g).name = d.name ∧
     (map_pipenv_graph_to_sbom d g).documentNamespace = d.documentNamespace ∧
     (map_pipenv_graph_to_sbom d g).creationInfo = d.creationInfo ∧
     (map_pipenv_graph_to_sbom d g).relationships =
       some (d.relationships.getD [] ++ map_pipenv_new_rels d.packages g) ∧
     (map_pipenv_new_rels d.packages g).all
       (fun r => r.relationshipType == some "DEPENDS_ON") = true) ∧
    ((map_npm_ls_to_sbom d t).packages = d.packages ∧
     (map_npm_ls_to_sbom d t).spdxVersion = d.spdxVersion ∧
     (map_npm_ls_to_sbom d t).dataLicense = d.dataLicense ∧
     (map_npm_ls_to_sbom d t).SPDXID = d.SPDXID ∧
     (map_npm_ls_to_sbom d t).name = d.name ∧
     (map_npm_ls_to_sbom d t).documentNamespace = d.documentNamespace ∧
     (map_npm_ls_to_sbom d t).creationInfo = d.creationInfo ∧
     (map_npm_ls_to_sbom d t).relationships =
       some (d.relationships.getD [] ++ map_npm_new_rels d.packages t) ∧
     (map_npm_new_rels d.packages t).all
       (fun r => r.relationshipType == some "DEPENDS_ON") = true) := by
  refine ⟨⟨rfl, rfl, rfl, rfl, rfl, rfl, rfl, rfl, ?_⟩,
    ⟨rfl, rfl, rfl, rfl, rfl, rfl, rfl, rfl, ?_⟩⟩
  · exact all_type_of_relOk _ _ (map_pipenv_new_rels_all d.packages g)
  · exact all_type_of_relOk _ _ (map_npm_new_rels_all d.packages t)

/-- A `filterMap` has the same length as the `filter` by definedness of
the partial map. -/
theorem filterMap_len_eq_filter {α β : Type} (f : α → Option β) (p : α → Bool)
    (hfp : ∀ a, (f a).isSome = p a) (l : List α) :
    (l.filterMap f).length = (l.filter p).length := by
  induction l with
  | nil => rfl
  | cons a l ih =>
    rw [List.filterMap_cons, List.filter_cons]
    cases hf : f a with
    | none =>
      have hp : p a = false := by rw [← hfp a, hf]; rfl
      rw [hp]
      simpa using ih
    | some b =>
      have hp : p a = true := by rw [← hfp a, hf]; rfl
      rw [hp]
      simp [ih]

/-- The pipenv mapper appends exactly one relationship per graph edge
both of whose endpoints resolve truthily; the other edges are dropped. -/
theorem map_pipenv_new_rels_length (pkgs : List Package)
    (graph : List PipenvNode) :
    (map_pipenv_new_rels pkgs graph).length =
      (graph.flatMap (fun node => node.dependencies.filter (fun c =>
        resolvesB pkgs node.package_key && resolvesB pkgs c))).length := by
  induction graph with
  | nil => rfl
  | cons node rest ih =>
    unfold map_pipenv_new_rels at ih ⊢
    rw [List.flatMap_cons, List.flatMap_cons, List.length_append,
      List.length_append, ih]
    congr 1
    apply filterMap_len_eq_filter
    intro c
    cases hp : pyTruthy (name_to_spdxid pkgs node.package_key) with
    | none =>
      have h1 : resolvesB pkgs node.package_key = false := by
        unfold resolvesB
        rw [hp]
      rw [h1]
      cases hc : pyTruthy (name_to_spdxid pkgs c) <;> rfl
    | some pid =>
      have h1 : resolvesB pkgs node.package_key = true := by
        unfold resolvesB
        rw [hp]
      rw [h1]
      cases hc : pyTruthy (name_to_spdxid pkgs c) with
      | none =>
        have h2 : resolvesB pkgs c = false := by
          unfold resolvesB
          rw [hc]
        rw [h2]
        rfl
      | some cid =>
        have h2 : resolvesB pkgs c = true := by
          unfold resolvesB
          rw [hc]
        rw [h2]
        rfl

mutual
/-- When every name in a tree resolves truthily, the walk emits exactly
one edge per parent-child occurrence. -/
theorem walk_dependencies_length (pkgs : List Package) (parent : String)
    (t : NpmTree) (hp : resolvesB pkgs parent = true)
    (ht : treeAllResolve pkgs t = true) :
    (walk_dependencies pkgs parent t).length = treeEdgeCount t := by
  cases t with
  | node deps =>
    rw [walk_dependencies, treeEdgeCount]
    cases hres : pyTruthy (name_to_spdxid pkgs parent) with
    | none =>
      unfold resolvesB at hp
      rw [hres] at hp
      exact absurd hp (by simp)
    | some pid =>
      rw [treeAllResolve] at ht
      exact walk_dep_items_length pkgs pid deps ht

/-- Loop part of `walk_dependencies_length`. -/
theorem walk_dep_items_length (pkgs : List Package) (pid : String)
    (deps : List (String × NpmTree))
    (hd : listAllResolve pkgs deps = true) :
    (walk_dep_items pkgs pid deps).length = listEdgeCount deps := by
  cases deps with
  | nil => rfl
  | cons cd rest =>
    obtain ⟨cn, ct⟩ := cd
    rw [listAllResolve] at hd
    simp only [Bool.and_eq_true] at hd
    obtain ⟨⟨hcn, hct⟩, hrest⟩ := hd
    rw [walk_dep_items, listEdgeCount, List.length_append, List.length_append,
      walk_dependencies_length pkgs cn ct hcn hct,
      walk_dep_items_length pkgs pid rest hrest]
    cases hres : pyTruthy (name_to_spdxid pkgs cn) with
    | none =>
      unfold resolvesB at hcn
      rw [hres] at hcn
      exact absurd hcn (by simp)
    | some cid => rfl
end

/-- C2: every relationship appended by `map_pipenv_graph_to_sbom` and
`map_npm_ls_to_sbom` has both endpoints equal to the SPDXID of some entry
of the document's packages (and type `DEPENDS_ON`); pipenv graph edges
whose parent or child name does not resolve are dropped, contributing no
relationship (the appended count equals the count of fully resolved
edges). -/
theorem C2_mapper_endpoints_in_packages (pkgs : List Package)
    (graph : List PipenvNode) (t : NpmTop) :
    (map_pipenv_new_rels pkgs graph).all (relOk pkgs) = true ∧
    (map_npm_new_rels pkgs t).all (relOk pkgs) = true ∧
    (map_pipenv_new_rels pkgs graph).length =
      (graph.flatMap (fun node => node.dependencies.filter (fun c =>
        resolvesB pkgs node.package_key && resolvesB pkgs c))).length :=
  ⟨map_pipenv_new_rels_all pkgs graph, map_npm_new_rels_all pkgs t,
    map_pipenv_new_rels_length pkgs graph⟩

/-- C3: on the diamond tree (root `A` with children `B`, `C`, both with
child `D`) the walk terminates with exactly the 4 edges `A→B`, `B→D`,
`A→C`, `C→D`; in general, the walk (total by structural recursion, which
witnesses termination of the Python recursion on finite trees) emits
exactly one edge per parent-child occurrence whenever every involved name
resolves. -/
theorem C3_npm_walk_diamond_and_count :
    (map_npm_new_rels pkgsDiamond npmDiamond =
      [⟨some "SPDXRef-A", some "SPDXRef-B", some "DEPENDS_ON"⟩,
       ⟨some "SPDXRef-B", some "SPDXRef-D", some "DEPENDS_ON"⟩,
       ⟨some "SPDXRef-A", some "SPDXRef-C", some "DEPENDS_ON"⟩,
       ⟨some "SPDXRef-C", some "SPDXRef-D", some "DEPENDS_ON"⟩] ∧
     (map_npm_new_rels pkgsDiamond npmDiamond).length = 4) ∧
    ∀ (pkgs : List Package) (parent : String) (t : NpmTree),
      resolvesB pkgs parent = true → treeAllResolve pkgs t = true →
      (walk_dependencies pkgs parent t).length = treeEdgeCount t :=
  ⟨⟨by rfl, by rfl⟩, fun pkgs parent t hp ht =>
    walk_dependencies_length pkgs parent t hp ht⟩

/-- C3 witness: the hypotheses of the general count statement hold for the
diamond inventory at parent `A`, and the count is the full tree's 4. -/
theorem C3_npm_walk_diamond_and_count_witness :
    resolvesB pkgsDiamond "A" = true ∧
    treeAllResolve pkgsDiamond (NpmTree.node npmDiamond.dependencies) = true ∧
    (walk_dependencies pkgsDiamond "A"
      (NpmTree.node npmDiamond.dependencies)).length =
      treeEdgeCount (NpmTree.node npmDiamond.dependencies) :=
  ⟨by rfl, by rfl,
    C3_npm_walk_diamond_and_count.2 pkgsDiamond "A"
      (NpmTree.node npmDiamond.dependencies) (by rfl) (by rfl)⟩

/-- Filtering the kept side of a previous filter by the dropped side
yields nothing. -/
theorem filter_not_self_nil {α : Type} (p : α → Bool) (l : List α) :
    (l.filter (fun a => !(p a))).filter p = [] := by
  rw [List.filter_filter]
  have h : ∀ a ∈ l, (p a && !(p a)) = false := by
    intro a _
    cases p a <;> rfl
  rw [List.filter_congr h]
  exact List.filter_false l

/-- If a document retains no `Pipfile.lock`-matching package, app.py's
sanitizer leaves it unchanged. -/
theorem remove_app_fixed (e : SpdxDoc)
    (h : e.packages.filter appLockMatch = []) :
    remove_pipfile_package_app e = e := by
  have hall : ∀ a ∈ e.packages, appLockMatch a = false := by
    intro a ha
    cases hx : appLockMatch a
    · rfl
    · have hmem : a ∈ e.packages.filter appLockMatch :=
        List.mem_filter.mpr ⟨ha, hx⟩
      rw [h] at hmem
      exact absurd hmem (List.not_mem_nil a)
  have hp : e.packages.filter (fun p => !(appLockMatch p)) = e.packages := by
    rw [List.filter_eq_self]
    intro a ha
    rw [hall a ha]
    rfl
  unfold remove_pipfile_package_app
  simp only [h, List.map_nil, List.isEmpty_nil, if_true]
  rw [hp]
  have hrel : (match e.relationships with
      | none => none
      | some rs => some rs) = e.relationships := by
    cases e.relationships <;> rfl
  rw [hrel]

/-- If a document retains no matching package, main.py's sanitizer keeps
it unchanged and succeeds. -/
theorem remove_main_fixed (e : SpdxDoc)
    (h : e.packages.filter mainLockMatch = []) :
    remove_pipfile_package_main e = Except.ok e := by
  have hall : ∀ a ∈ e.packages, mainLockMatch a = false := by
    intro a ha
    cases hx : mainLockMatch a
    · rfl
    · have hmem : a ∈ e.packages.filter mainLockMatch :=
        List.mem_filter.mpr ⟨ha, hx⟩
      rw [h] at hmem
      exact absurd hmem (List.not_mem_nil a)
  have hp : e.packages.filter (fun p => !(mainLockMatch p)) = e.packages := by
    rw [List.filter_eq_self]
    intro a ha
    rw [hall a ha]
    rfl
  unfold remove_pipfile_package_main
  rw [h]
  show Except.ok _ = Except.ok e
  have hq : ∀ rs : List Relationship,
      rs.filter (fun r =>
        !(optMemStr r.spdxElementId []) &&
        !(optMemStr r.relatedSpdxElement [])) = rs := by
    intro rs
    rw [List.filter_eq_self]
    intro r _
    cases hx : r.spdxElementId <;> cases hy : r.relatedSpdxElement <;> rfl
  have hrel : (match e.relationships with
      | none => none
      | some rs =>
        some (rs.filter (fun r =>
          !(optMemStr r.spdxElementId []) &&
          !(optMemStr r.relatedSpdxElement [])))) = e.relationships := by
    cases e.relationships with
    | none => rfl
    | some rs => exact congrArg some (hq rs)
  rw [hp, hrel]

/-- C6: the sanitizer is idempotent.  app.py's `remove_pipfile_package`
maps an already-sanitized document to itself; main.py's version maps any
of its own successful outputs to itself (again successfully). -/
theorem C6_sanitizer_idempotent :
    (∀ d : SpdxDoc,
      remove_pipfile_package_app (remove_pipfile_package_app d) =
        remove_pipfile_package_app d) ∧
    ∀ (d d2 : SpdxDoc), remove_pipfile_package_main d = Except.ok d2 →
      remove_pipfile_package_main d2 = Except.ok d2 := by
  constructor
  · intro d
    exact remove_app_fixed (remove_pipfile_package_app d)
      (filter_not_self_nil appLockMatch d.packages)
  · intro d d2 h
    unfold remove_pipfile_package_main at h
    revert h
    cases hc : collectStrict (d.packages.filter mainLockMatch) with
    | error e => intro h; exact absurd h (by simp)
    | ok ids =>
      intro h
      injection h with h2
      apply remove_main_fixed
      rw [← h2]
      exact filter_not_self_nil mainLockMatch d.packages

/-- C6 witness: a concrete document holding a `Pipfile.lock` pseudo
package, its sanitized form, and idempotence of the second pass on it. -/
theorem C6_sanitizer_idempotent_witness :
    remove_pipfile_package_main
      ⟨some "SPDX-2.3", none, none, none, none, none,
        [⟨some "SPDXRef-lock", some "Pipfile.lock"⟩,
         ⟨some "SPDXRef-flask", some "flask"⟩],
        some [⟨some "SPDXRef-flask", some "SPDXRef-lock", some "DEPENDS_ON"⟩]⟩ =
      Except.ok
        ⟨some "SPDX-2.3", none, none, none, none, none,
          [⟨some "SPDXRef-flask", some "flask"⟩], some []⟩ ∧
    remove_pipfile_package_main
      ⟨some "SPDX-2.3", none, none, none, none, none,
        [⟨some "SPDXRef-flask", some "flask"⟩], some []⟩ =
      Except.ok
        ⟨some "SPDX-2.3", none, none, none, none, none,
          [⟨some "SPDXRef-flask", some "flask"⟩], some []⟩ := by
  constructor
  · rfl
  · exact C6_sanitizer_idempotent.2
      ⟨some "SPDX-2.3", none, none, none, none, none,
        [⟨some "SPDXRef-lock", some "Pipfile.lock"⟩,
         ⟨some "SPDXRef-flask", some "flask"⟩],
        some [⟨some "SPDXRef-flask", some "SPDXRef-lock", some "DEPENDS_ON"⟩]⟩
      ⟨some "SPDX-2.3", none, none, none, none, none,
        [⟨some "SPDXRef-flask", some "flask"⟩], some []⟩
      (by rfl)

/-- Every package the strict collector consumes contributes its SPDXID to
the collected list. -/
theorem collectStrict_mem : ∀ (l : List Package) (ids : List String),
    collectStrict l = Except.ok ids → ∀ p ∈ l, ∃ i, p.SPDXID = some i ∧ i ∈ ids := by
  intro l
  induction l with
  | nil => intro ids _ p hp; exact absurd hp (List.not_mem_nil p)
  | cons q rest ih =>
    intro ids h p hp
    revert h
    unfold collectStrict
    cases hq : q.SPDXID with
    | none => intro h; exact absurd h (by simp)
    | some i =>
      cases hc : collectStrict rest with
      | error e => intro h; exact absurd h (by simp)
      | ok ids2 =>
        intro h
        injection h with h2
        subst h2
        rcases List.mem_cons.mp hp with h3 | h3
        · subst h3; exact ⟨i, hq, List.mem_cons_self i ids2⟩
        · obtain ⟨j, hj1, hj2⟩ := ih ids2 hc p h3
          exact ⟨j, hj1, List.mem_cons_of_mem i hj2⟩

/-- A kept package of main.py's sanitizer has no `Pipfile.lock` in its
name. -/
theorem mainLockMatch_false_no_sub (p : Package) (n : String)
    (hn : p.name = some n) (hm : mainLockMatch p = false) :
    strHas n "Pipfile.lock" = false := by
  have he : mainLockMatch p = ((!(n = "")) && strHas n "Pipfile.lock") := by
    unfold mainLockMatch
    rw [hn]
  rw [he] at hm
  by_cases hz : n = ""
  · subst hz; rfl
  · simpa [hz] using hm

/-- Soundness of main.py's sanitizer: no lockfile-named package survives
and no kept relationship touches a removed package's SPDXID. -/
theorem remove_main_sound (d d2 : SpdxDoc)
    (h : remove_pipfile_package_main d = Except.ok d2) :
    (∀ p ∈ d2.packages, ∀ n, p.name = some n →
      strHas n "Pipfile.lock" = false) ∧
    ∀ r ∈ d2.relationships.getD [], ∀ p ∈ d.packages, mainLockMatch p = true →
      r.spdxElementId ≠ p.SPDXID ∧ r.relatedSpdxElement ≠ p.SPDXID := by
  revert h
  unfold remove_pipfile_package_main
  cases hc : collectStrict (d.packages.filter mainLockMatch) with
  | error e => intro h; exact absurd h (by simp)
  | ok ids =>
    intro h
    injection h with h2
    subst h2
    constructor
    · intro p hp n hn
      have hp2 : p ∈ d.packages.filter (fun q => !(mainLockMatch q)) := hp
      have hm : (!(mainLockMatch p)) = true := (List.mem_filter.mp hp2).2
      exact mainLockMatch_false_no_sub p n hn (by simpa using hm)
    · intro r hr p hp hpm
      have hpmem : p ∈ d.packages.filter mainLockMatch :=
        List.mem_filter.mpr ⟨hp, hpm⟩
      obtain ⟨i, hpi, hiid⟩ := collectStrict_mem _ ids hc p hpmem
      cases hrel : d.relationships with
      | none =>
        rw [hrel] at hr
        exact absurd hr (List.not_mem_nil r)
      | some rs =>
        rw [hrel] at hr
        have hr2 : r ∈ rs.filter (fun r0 =>
            !(optMemStr r0.spdxElementId ids) &&
            !(optMemStr r0.relatedSpdxElement ids)) := hr
        have hkeep := (List.mem_filter.mp hr2).2
        simp only [Bool.and_eq_true] at hkeep
        constructor
        · intro hcontra
          have : optMemStr r.spdxElementId ids = true := by
            rw [hcontra, hpi]
            exact List.elem_iff.mpr hiid
          rw [this] at hkeep
          exact absurd hkeep.1 (by simp)
        · intro hcontra
          have : optMemStr r.relatedSpdxElement ids = true := by
            rw [hcontra, hpi]
            exact List.elem_iff.mpr hiid
          rw [this] at hkeep
          exact absurd hkeep.2 (by simp)

/-- Soundness of app.py's sanitizer, same shape as `remove_main_sound`. -/
theorem remove_app_sound (d : SpdxDoc) :
    (∀ p ∈ (remove_pipfile_package_app d).packages, ∀ n, p.name = some n →
      strHas n "Pipfile.lock" = false) ∧
    ∀ r ∈ (remove_pipfile_package_app d).relationships.getD [],
      ∀ p ∈ d.packages, appLockMatch p = true →
        r.spdxElementId ≠ p.SPDXID ∧ r.relatedSpdxElement ≠ p.SPDXID := by
  constructor
  · intro p hp n hn
    have hp2 : p ∈ d.packages.filter (fun q => !(appLockMatch q)) := hp
    have hm : (!(appLockMatch p)) = true := (List.mem_filter.mp hp2).2
    have hm2 : appLockMatch p = false := by simpa using hm
    unfold appLockMatch at hm2
    rw [hn] at hm2
    exact hm2
  · intro r hr p hp hpm
    have hpmem : p ∈ d.packages.filter appLockMatch :=
      List.mem_filter.mpr ⟨hp, hpm⟩
    have hidmem : p.SPDXID ∈ (d.packages.filter appLockMatch).map (·.SPDXID) :=
      List.mem_map.mpr ⟨p, hpmem, rfl⟩
    have hne : ((d.packages.filter appLockMatch).map (·.SPDXID)).isEmpty = false := by
      cases hcase : (d.packages.filter appLockMatch).map (·.SPDXID) with
      | nil => rw [hcase] at hidmem; exact absurd hidmem (List.not_mem_nil _)
      | cons a as => rfl
    cases hrel : d.relationships with
    | none =>
      have heq : (remove_pipfile_package_app d).relationships = none := by
        unfold remove_pipfile_package_app
        simp only [hrel]
      rw [heq] at hr
      exact absurd hr (List.not_mem_nil r)
    | some rs =>
      have heq : (remove_pipfile_package_app d).relationships =
          some (rs.filter (fun r0 =>
            !(((d.packages.filter appLockMatch).map (·.SPDXID)).contains r0.spdxElementId) &&
            !(((d.packages.filter appLockMatch).map (·.SPDXID)).contains r0.relatedSpdxElement))) := by
        unfold remove_pipfile_package_app
        simp only [hrel, hne, Bool.false_eq_true, if_false]
      rw [heq] at hr
      have hkeep := (List.mem_filter.mp hr).2
      simp only [Bool.and_eq_true] at hkeep
      constructor
      · intro hcontra
        have : ((d.packages.filter appLockMatch).map (·.SPDXID)).contains
            r.spdxElementId = true := by
          rw [hcontra]
          exact List.elem_iff.mpr hidmem
        rw [this] at hkeep
        exact absurd hkeep.1 (by simp)
      · intro hcontra
        have : ((d.packages.filter appLockMatch).map (·.SPDXID)).contains
            r.relatedSpdxElement = true := by
          rw [hcontra]
          exact List.elem_iff.mpr hidmem
        rw [this] at hkeep
        exact absurd hkeep.2 (by simp)

/-- C1 (amended): after `remove_pipfile_package` (main.py and app.py) no
surviving package name contains the lockfile filename and no surviving
relationship endpoint equals a removed package's SPDXID; the inline
post-scan filters of app_p.py remove every lockfile-named package from
`packages` but leave `relationships` untouched, so relationships
referencing a removed SPDXID can remain there (see the counterexample). -/
theorem C1_sanitizers_amended :
    (∀ d d2 : SpdxDoc, remove_pipfile_package_main d = Except.ok d2 →
      (∀ p ∈ d2.packages, ∀ n, p.name = some n →
        strHas n "Pipfile.lock" = false) ∧
      (∀ r ∈ d2.relationships.getD [], ∀ p ∈ d.packages,
        mainLockMatch p = true →
          r.spdxElementId ≠ p.SPDXID ∧ r.relatedSpdxElement ≠ p.SPDXID)) ∧
    (∀ d : SpdxDoc,
      (∀ p ∈ (remove_pipfile_package_app d).packages, ∀ n, p.name = some n →
        strHas n "Pipfile.lock" = false) ∧
      (∀ r ∈ (remove_pipfile_package_app d).relationships.getD [],
        ∀ p ∈ d.packages, appLockMatch p = true →
          r.spdxElementId ≠ p.SPDXID ∧ r.relatedSpdxElement ≠ p.SPDXID)) ∧
    (∀ d : SpdxDoc,
      (∀ p ∈ (create_python_sbom_filter d).packages, ∀ n, p.name = some n →
        strHas n "Pipfile.lock" = false) ∧
      (create_python_sbom_filter d).relationships = d.relationships) ∧
    (∀ d : SpdxDoc,
      (∀ p ∈ (create_nodejs_sbom_filter d).packages, ∀ n, p.name = some n →
        strHas n "package-lock.json" = false) ∧
      (create_nodejs_sbom_filter d).relationships = d.relationships) := by
  refine ⟨remove_main_sound, remove_app_sound, fun d => ⟨?_, rfl⟩, fun d => ⟨?_, rfl⟩⟩
  · intro p hp n hn
    have hp2 : p ∈ d.packages.filter (fun q =>
        !(q.name == some "Pipfile.lock" ||
          strHas (pyStrOfOpt q.name) "Pipfile.lock")) := hp
    have hm := (List.mem_filter.mp hp2).2
    simp only [Bool.not_eq_eq_eq_not, Bool.not_true, Bool.or_eq_false_iff] at hm
    have := hm.2
    rw [hn] at this
    exact this
  · intro p hp n hn
    have hp2 : p ∈ d.packages.filter (fun q =>
        !(q.name == some "package-lock.json" ||
          strHas (pyStrOfOpt q.name) "package-lock.json")) := hp
    have hm := (List.mem_filter.mp hp2).2
    simp only [Bool.not_eq_eq_eq_not, Bool.not_true, Bool.or_eq_false_iff] at hm
    have := hm.2
    rw [hn] at this
    exact this

/-- C1 counterexample: a scanner-shaped document whose `Pipfile.lock`
pseudo-package (SPDXID `SPDXRef-lock`) has a relationship pointing at it.
The inline sanitizer of app_p.py's `create_python_sbom` removes the
package yet keeps the relationship, so the sanitized document does
contain a relationship whose `relatedSpdxElement` is the SPDXID of a
removed package — refuting the claim as stated. -/
theorem C1_sanitizers_counterexample :
    (create_python_sbom_filter
      ⟨some "SPDX-2.3", none, none, none, none, none,
        [⟨some "SPDXRef-lock", some "Pipfile.lock"⟩,
         ⟨some "SPDXRef-flask", some "flask"⟩],
        some [⟨some "SPDXRef-flask", some "SPDXRef-lock",
          some "DEPENDS_ON"⟩]⟩).packages =
      [⟨some "SPDXRef-flask", some "flask"⟩] ∧
    (create_python_sbom_filter
      ⟨some "SPDX-2.3", none, none, none, none, none,
        [⟨some "SPDXRef-lock", some "Pipfile.lock"⟩,
         ⟨some "SPDXRef-flask", some "flask"⟩],
        some [⟨some "SPDXRef-flask", some "SPDXRef-lock",
          some "DEPENDS_ON"⟩]⟩).relationships =
      some [⟨some "SPDXRef-flask", some "SPDXRef-lock", some "DEPENDS_ON"⟩] :=
  ⟨by rfl, by rfl⟩

/-- C1 witness: the amended theorem applied to a concrete document for
main.py's sanitizer. -/
theorem C1_sanitizers_amended_witness :
    strHas "flask" "Pipfile.lock" = false := by
  have h := C1_sanitizers_amended.1
    ⟨none, none, none, none, none, none,
      [⟨some "SPDXRef-lock", some "Pipfile.lock"⟩,
       ⟨some "SPDXRef-flask", some "flask"⟩], some []⟩
    ⟨none, none, none, none, none, none,
      [⟨some "SPDXRef-flask", some "flask"⟩], some []⟩
    (by rfl)
  exact h.1 ⟨some "SPDXRef-flask", some "flask"⟩ (by decide) "flask" rfl

/-- `contains` distributes over list append as boolean disjunction. -/
theorem contains_append {α : Type} [BEq α] (l1 l2 : List α) (a : α) :
    (l1 ++ l2).contains a = (l1.contains a || l2.contains a) := by
  induction l1 with
  | nil => rfl
  | cons x xs ih =>
    rw [List.cons_append, List.contains_cons, List.contains_cons, ih,
      Bool.or_assoc]

/-- The packages of a merged document, spelt out. -/
theorem mergeCore_packages (ff : String → Bool) (ex : Package → Bool)
    (listing : List (String × SpdxDoc)) :
    (mergeCore ff ex listing).packages =
      listing.flatMap (fun fd =>
        if ff fd.1 then
          (fd.2).packages.filter (fun p =>
            !((collectExcludeIds ff ex listing).contains p.SPDXID))
        else []) := rfl

/-- The relationships of a merged document, spelt out. -/
theorem mergeCore_rels (ff : String → Bool) (ex : Package → Bool)
    (listing : List (String × SpdxDoc)) :
    (mergeCore ff ex listing).relationships =
      some (listing.flatMap (fun fd =>
        if ff fd.1 then
          ((fd.2).relationships.getD []).filter (fun r =>
            !((collectExcludeIds ff ex listing).contains r.spdxElementId) &&
            !((collectExcludeIds ff ex listing).contains r.relatedSpdxElement))
        else [])) := rfl

/-- Swapping the two files of a listing leaves the excluded-id test
unchanged. -/
theorem collectExcludeIds_swap (ff : String → Bool) (ex : Package → Bool)
    (fa fb : String) (A B : SpdxDoc) (o : Option String) :
    (collectExcludeIds ff ex [(fa, A), (fb, B)]).contains o =
    (collectExcludeIds ff ex [(fb, B), (fa, A)]).contains o := by
  unfold collectExcludeIds
  simp only [List.flatMap_cons, List.flatMap_nil, List.append_nil]
  rw [contains_append, contains_append, Bool.or_comm]

/-- Membership in the merged packages and relationships is invariant
under swapping the two files of the listing. -/
theorem mergeCore_swap_mem (ff : String → Bool) (ex : Package → Bool)
    (fa fb : String) (A B : SpdxDoc) :
    (∀ p : Package,
      p ∈ (mergeCore ff ex [(fa, A), (fb, B)]).packages ↔
      p ∈ (mergeCore ff ex [(fb, B), (fa, A)]).packages) ∧
    ∀ r : Relationship,
      r ∈ (mergeCore ff ex [(fa, A), (fb, B)]).relationships.getD [] ↔
      r ∈ (mergeCore ff ex [(fb, B), (fa, A)]).relationships.getD [] := by
  have hfil : ∀ pk : List Package,
      pk.filter (fun p =>
        !((collectExcludeIds ff ex [(fa, A), (fb, B)]).contains p.SPDXID)) =
      pk.filter (fun p =>
        !((collectExcludeIds ff ex [(fb, B), (fa, A)]).contains p.SPDXID)) := by
    intro pk
    apply List.filter_congr
    intro p _
    rw [collectExcludeIds_swap]
  have hfilr : ∀ rl : List Relationship,
      rl.filter (fun r =>
        !((collectExcludeIds ff ex [(fa, A), (fb, B)]).contains r.spdxElementId) &&
        !((collectExcludeIds ff ex [(fa, A), (fb, B)]).contains r.relatedSpdxElement)) =
      rl.filter (fun r =>
        !((collectExcludeIds ff ex [(fb, B), (fa, A)]).contains r.spdxElementId) &&
        !((collectExcludeIds ff ex [(fb, B), (fa, A)]).contains r.relatedSpdxElement)) := by
    intro rl
    apply List.filter_congr
    intro r _
    simp only [collectExcludeIds_swap ff ex fa fb A B]
  constructor
  · intro p
    rw [mergeCore_packages, mergeCore_packages]
    simp only [List.flatMap_cons, List.flatMap_nil, List.append_nil]
    rw [hfil A.packages, hfil B.packages]
    simp only [List.mem_append]
    exact Or.comm
  · intro r
    rw [mergeCore_rels, mergeCore_rels]
    simp only [Option.getD_some, List.flatMap_cons, List.flatMap_nil,
      List.append_nil]
    rw [hfilr (A.relationships.getD []), hfilr (B.relationships.getD [])]
    simp only [List.mem_append]
    exact Or.comm

/-- C4: merging a two-file directory in either listing order yields the
same `packages` and `relationships` collections as sets, for app_p.py's
`merge_sbom_files`, app_n.py's `merge_sbom_files`,
`merge_nodejs_sbom_files` and `merge_java_sbom_files`. -/
theorem C4_merge_order_independent (fa fb : String) (A B : SpdxDoc) :
    ((∀ p : Package,
        p ∈ (merge_sbom_files_p [(fa, A), (fb, B)]).packages ↔
        p ∈ (merge_sbom_files_p [(fb, B), (fa, A)]).packages) ∧
      ∀ r : Relationship,
        r ∈ (merge_sbom_files_p [(fa, A), (fb, B)]).relationships.getD [] ↔
        r ∈ (merge_sbom_files_p [(fb, B), (fa, A)]).relationships.getD []) ∧
    ((∀ p : Package,
        p ∈ (merge_sbom_files_n [(fa, A), (fb, B)]).packages ↔
        p ∈ (merge_sbom_files_n [(fb, B), (fa, A)]).packages) ∧
      ∀ r : Relationship,
        r ∈ (merge_sbom_files_n [(fa, A), (fb, B)]).relationships.getD [] ↔
        r ∈ (merge_sbom_files_n [(fb, B), (fa, A)]).relationships.getD []) ∧
    ((∀ p : Package,
        p ∈ (merge_nodejs_sbom_files [(fa, A), (fb, B)]).packages ↔
        p ∈ (merge_nodejs_sbom_files [(fb, B), (fa, A)]).packages) ∧
      ∀ r : Relationship,
        r ∈ (merge_nodejs_sbom_files [(fa, A), (fb, B)]).relationships.getD [] ↔
        r ∈ (merge_nodejs_sbom_files [(fb, B), (fa, A)]).relationships.getD []) ∧
    ((∀ p : Package,
        p ∈ (merge_java_sbom_files [(fa, A), (fb, B)]).packages ↔
        p ∈ (merge_java_sbom_files [(fb, B), (fa, A)]).packages) ∧
      ∀ r : Relationship,
        r ∈ (merge_java_sbom_files [(fa, A), (fb, B)]).relationships.getD [] ↔
        r ∈ (merge_java_sbom_files [(fb, B), (fa, A)]).relationships.getD []) :=
  ⟨mergeCore_swap_mem pyFileMatchP mergeExPy fa fb A B,
   mergeCore_swap_mem pyFileMatchN mergeExPy fa fb A B,
   mergeCore_swap_mem nodeFileMatch mergeExNode fa fb A B,
   mergeCore_swap_mem javaFileMatch mergeExJava fa fb A B⟩

/-- A listed file whose name fails the ecosystem filter contributes
nothing to the merge. -/
theorem mergeCore_append_nonmatching (ff : String → Bool) (ex : Package → Bool)
    (l : List (String × SpdxDoc)) (fn : String) (d : SpdxDoc)
    (h : ff fn = false) :
    mergeCore ff ex (l ++ [(fn, d)]) = mergeCore ff ex l := by
  have hids : collectExcludeIds ff ex (l ++ [(fn, d)]) =
      collectExcludeIds ff ex l := by
    unfold collectExcludeIds
    rw [List.flatMap_append]
    simp [h]
  have hfirst : firstMatching ff (l ++ [(fn, d)]) = firstMatching ff l := by
    unfold firstMatching
    rw [List.find?_append]
    have h2 : List.find? (fun fd => ff fd.1) [(fn, d)] = none := by
      simp [List.find?_cons, h]
    rw [h2, Option.or_none]
  simp only [mergeCore, hids, hfirst, List.flatMap_append]
  simp [h]

/-- C5 (amended): re-running app_p.py's merge step over the output
directory after its own merged file has been written there is idempotent,
because the merged filenames (`python_packages.json`,
`nodejs_packages.json`, `java_packages.json`) do not match the
`_python_`/`_nodejs_`/`_java_` filename filters; the analogous statement
fails for app_n.py, whose `python_` prefix filter re-ingests the merged
file (see the counterexample). -/
theorem C5_merge_rerun_amended (l : List (String × SpdxDoc)) :
    merge_sbom_files_p
      (l ++ [("python_packages.json", merge_sbom_files_p l)]) =
      merge_sbom_files_p l ∧
    merge_nodejs_sbom_files
      (l ++ [("nodejs_packages.json", merge_nodejs_sbom_files l)]) =
      merge_nodejs_sbom_files l ∧
    merge_java_sbom_files
      (l ++ [("java_packages.json", merge_java_sbom_files l)]) =
      merge_java_sbom_files l :=
  ⟨mergeCore_append_nonmatching pyFileMatchP mergeExPy l _ _ (by rfl),
   mergeCore_append_nonmatching nodeFileMatch mergeExNode l _ _ (by rfl),
   mergeCore_append_nonmatching javaFileMatch mergeExJava l _ _ (by rfl)⟩

/-- C5 counterexample: for app_n.py, `python_packages.json` itself matches
the `python_` prefix filter; merging once over one per-package file, then
merging again over the directory now also holding the merged file, yields
a different (package-duplicating) document, so the second run differs
from the first. -/
theorem C5_merge_rerun_counterexample :
    merge_sbom_files_n
      ([("python_flask_2.0.1.json",
          ⟨some "SPDX-2.3", none, none, none, none, none,
            [⟨some "SPDXRef-flask", some "flask"⟩], some []⟩)] ++
        [("python_packages.json",
          merge_sbom_files_n
            [("python_flask_2.0.1.json",
              ⟨some "SPDX-2.3", none, none, none, none, none,
                [⟨some "SPDXRef-flask", some "flask"⟩], some []⟩)])]) ≠
    merge_sbom_files_n
      [("python_flask_2.0.1.json",
        ⟨some "SPDX-2.3", none, none, none, none, none,
          [⟨some "SPDXRef-flask", some "flask"⟩], some []⟩)] := by
  decide

/-- The six envelope fields of a merged document are exactly those of the
first file of the listing that matches the filename filter. -/
theorem mergeCore_envelope_first (ff : String → Bool) (ex : Package → Bool)
    (l : List (String × SpdxDoc)) (fn : String) (d : SpdxDoc)
    (h : l.find? (fun fd => ff fd.1) = some (fn, d)) :
    (mergeCore ff ex l).spdxVersion = d.spdxVersion ∧
    (mergeCore ff ex l).dataLicense = d.dataLicense ∧
    (mergeCore ff ex l).SPDXID = d.SPDXID ∧
    (mergeCore ff ex l).name = d.name ∧
    (mergeCore ff ex l).documentNamespace = d.documentNamespace ∧
    (mergeCore ff ex l).creationInfo = d.creationInfo := by
  have hf : firstMatching ff l = some d := by
    unfold firstMatching
    rw [h]
    rfl
  refine ⟨?_, ?_, ?_, ?_, ?_, ?_⟩
  · show (firstMatching ff l).bind (·.spdxVersion) = d.spdxVersion
    rw [hf]; rfl
  · show (firstMatching ff l).bind (·.dataLicense) = d.dataLicense
    rw [hf]; rfl
  · show (firstMatching ff l).bind (·.SPDXID) = d.SPDXID
    rw [hf]; rfl
  · show (firstMatching ff l).bind (·.name) = d.name
    rw [hf]; rfl
  · show (firstMatching ff l).bind (·.documentNamespace) = d.documentNamespace
    rw [hf]; rfl
  · show (firstMatching ff l).bind (·.creationInfo) = d.creationInfo
    rw [hf]; rfl

/-- C7: for a directory with at least one matching document, the merged
envelope (spdxVersion, dataLicense, SPDXID, name, documentNamespace,
creationInfo) equals field-for-field the envelope of the first matching
document of the listing — absent fields staying `None` — and later
documents never overwrite it; for both app_p.py's and app_n.py's
`merge_sbom_files`. -/
theorem C7_merge_envelope_from_first (l : List (String × SpdxDoc))
    (fn : String) (d : SpdxDoc) :
    (l.find? (fun fd => pyFileMatchP fd.1) = some (fn, d) →
      (merge_sbom_files_p l).spdxVersion = d.spdxVersion ∧
      (merge_sbom_files_p l).dataLicense = d.dataLicense ∧
      (merge_sbom_files_p l).SPDXID = d.SPDXID ∧
      (merge_sbom_files_p l).name = d.name ∧
      (merge_sbom_files_p l).documentNamespace = d.documentNamespace ∧
      (merge_sbom_files_p l).creationInfo = d.creationInfo) ∧
    (l.find? (fun fd => pyFileMatchN fd.1) = some (fn, d) →
      (merge_sbom_files_n l).spdxVersion = d.spdxVersion ∧
      (merge_sbom_files_n l).dataLicense = d.dataLicense ∧
      (merge_sbom_files_n l).SPDXID = d.SPDXID ∧
      (merge_sbom_files_n l).name = d.name ∧
      (merge_sbom_files_n l).documentNamespace = d.documentNamespace ∧
      (merge_sbom_files_n l).creationInfo = d.creationInfo) :=
  ⟨fun h => mergeCore_envelope_first pyFileMatchP mergeExPy l fn d h,
   fun h => mergeCore_envelope_first pyFileMatchN mergeExPy l fn d h⟩

/-- C7 witness: a two-file listing whose first matching member carries a
concrete envelope; the merged envelope equals it. -/
theorem C7_merge_envelope_from_first_witness :
    (merge_sbom_files_p
      [("skip.txt",
        ⟨some "other", none, none, none, none, none, [], none⟩),
       ("a_python_flask.json",
        ⟨some "SPDX-2.3", some "CC0-1.0", some "SPDXRef-DOCUMENT",
          some "flask-doc", none, some "created", [], some []⟩)]).spdxVersion =
      some "SPDX-2.3" := by
  have h := (C7_merge_envelope_from_first
    [("skip.txt",
      ⟨some "other", none, none, none, none, none, [], none⟩),
     ("a_python_flask.json",
      ⟨some "SPDX-2.3", some "CC0-1.0", some "SPDXRef-DOCUMENT",
        some "flask-doc", none, some "created", [], some []⟩)]
    "a_python_flask.json"
    ⟨some "SPDX-2.3", some "CC0-1.0", some "SPDXRef-DOCUMENT",
      some "flask-doc", none, some "created", [], some []⟩).1 (by rfl)
  exact h.1

/-- main.py/app.py CSV parsing agrees with its specification as a
filter-then-truncate. -/
theorem parse_csv_eq_spec (rows : List (List String)) :
    parse_csv rows = parse_csv_spec rows := by
  induction rows with
  | nil => rfl
  | cons row rest ih =>
    unfold parse_csv_spec at ih ⊢
    cases row with
    | nil => simpa [parse_csv] using ih
    | cons a r1 =>
      cases r1 with
      | nil => simpa [parse_csv] using ih
      | cons b r2 =>
        cases r2 with
        | nil => simpa [parse_csv] using ih
        | cons c r3 =>
          simp [parse_csv, List.filter_cons, Nat.le_add_left, ih]

/-- app_p.py CSV parsing agrees with its specification. -/
theorem parse_csv_app_p_eq_spec (rows : List (List String)) :
    parse_csv_app_p rows = parse_csv_app_p_spec rows := by
  induction rows with
  | nil => rfl
  | cons row rest ih =>
    unfold parse_csv_app_p_spec at ih ⊢
    cases row with
    | nil => simpa [parse_csv_app_p] using ih
    | cons a r1 =>
      cases r1 with
      | nil => simpa [parse_csv_app_p] using ih
      | cons b r2 =>
        cases r2 with
        | nil => simpa [parse_csv_app_p] using ih
        | cons c r3 =>
          cases r3 with
          | nil => simpa [parse_csv_app_p] using ih
          | cons d r4 =>
            cases r4 with
            | nil =>
              simp [parse_csv_app_p, List.filter_cons, ih]
            | cons e r5 =>
              by_cases hj : lowerStrip b = "java"
              · simp [parse_csv_app_p, List.filter_cons, Nat.le_add_left,
                  hj, ih]
              · simp [parse_csv_app_p, List.filter_cons, Nat.le_add_left,
                  hj, ih]

/-- C8: `parse_csv` returns exactly the sufficiently wide rows, in input
order, truncated to the used columns: main.py/app.py keep the first 3
columns of rows with at least 3 columns; app_p.py skips rows with fewer
than 4 columns, keeps 5 columns for java-tagged rows of at least 5
columns, and otherwise keeps 4 columns plus a `None` fifth element. -/
theorem C8_parse_csv_row_handling (rows : List (List String)) :
    parse_csv rows = parse_csv_spec rows ∧
    parse_csv_app_p rows = parse_csv_app_p_spec rows :=
  ⟨parse_csv_eq_spec rows, parse_csv_app_p_eq_spec rows⟩

end TrivyMultiScanner
